import Mathlib

/-!
Verification of the BarterPi callback server (src/server.js and the legacy
variant in src/unnamed/part_000) against its specification.

The embedding models JavaScript JSON values, the relevant pieces of the
express middleware stack (JSON body parsing, headers), the HMAC-SHA256
signature check (crypto.createHmac), and the Firestore merge-write used by
the /pi_callback handler.  Machine integers are Nat with explicit reduction
mod 2^32 where the C/JS code works on 32-bit words.
-/

set_option maxRecDepth 400000

namespace BarterPi

/-- JavaScript JSON values.  Numbers are modelled as integers; every numeric
literal appearing in the callback pipeline of this repository is integral. -/
inductive Json where
  | null : Json
  | bool : Bool → Json
  | num : Int → Json
  | str : String → Json
  | arr : List Json → Json
  | obj : List (String × Json) → Json

/-- Property lookup on a JSON value: `j.k` is `some v` when `j` is an object
with field `k`, `none` (JS undefined) otherwise. -/
def getField : Json → String → Option Json
  | Json.obj fs, key => lookupField fs key
  | _, _ => none
where
  lookupField : List (String × Json) → String → Option Json
    | [], _ => none
    | (k, v) :: rest, key => if k = key then some v else lookupField rest key

/-- JavaScript truthiness of a JSON value (NaN does not arise: numbers are
modelled as integers). -/
def truthy : Json → Bool
  | Json.null => false
  | Json.bool b => b
  | Json.num n => n ≠ 0
  | Json.str s => s ≠ ""
  | Json.arr _ => true
  | Json.obj _ => true

/-- JS truthiness of an optional JSON value, `none` standing for undefined. -/
def truthyOpt : Option Json → Bool
  | none => false
  | some j => truthy j

def quoteChar (c : Char) : String :=
  if c = '"' then "\\\""
  else if c = '\\' then "\\\\"
  else if c = Char.ofNat 10 then "\\n"
  else if c = Char.ofNat 9 then "\\t"
  else if c = Char.ofNat 13 then "\\r"
  else if c = Char.ofNat 8 then "\\b"
  else if c = Char.ofNat 12 then "\\f"
  else if c.toNat < 32 then
    "\\u00" ++ String.mk [hexDigitChar (c.toNat / 16), hexDigitChar (c.toNat % 16)]
  else String.mk [c]
where
  hexDigitChar (n : Nat) : Char := Char.ofNat (if n < 10 then 48 + n else 87 + n)

/-- JSON string literal as JSON.stringify produces it. -/
def quoteStr (s : String) : String :=
  "\"" ++ String.join (s.data.map quoteChar) ++ "\""

mutual

/-- JSON.stringify: canonical serialization of a parsed JSON value (object
fields in insertion order, no whitespace). -/
def stringify : Json → String
  | Json.null => "null"
  | Json.bool true => "true"
  | Json.bool false => "false"
  | Json.num n => toString n
  | Json.str s => quoteStr s
  | Json.arr xs => "[" ++ stringifyItems xs ++ "]"
  | Json.obj fs => "\x7b" ++ stringifyFields fs ++ "\x7d"

def stringifyItems : List Json → String
  | [] => ""
  | [x] => stringify x
  | x :: y :: rest => stringify x ++ "," ++ stringifyItems (y :: rest)

def stringifyFields : List (String × Json) → String
  | [] => ""
  | [(k, v)] => quoteStr k ++ ":" ++ stringify v
  | (k, v) :: f :: rest => quoteStr k ++ ":" ++ stringify v ++ "," ++ stringifyFields (f :: rest)

end

mutual

/-- JavaScript String(x) conversion for the JSON values that can appear as a
payment id (String(payload.payment_id) in server.js). -/
def jsToString : Json → String
  | Json.null => "null"
  | Json.bool true => "true"
  | Json.bool false => "false"
  | Json.num n => toString n
  | Json.str s => s
  | Json.arr xs => jsArrayJoin xs
  | Json.obj _ => "[object Object]"

/-- Array.prototype.toString: elements joined by commas, null rendered empty. -/
def jsArrayJoin : List Json → String
  | [] => ""
  | [Json.null] => ""
  | [x] => jsToString x
  | Json.null :: y :: rest => "," ++ jsArrayJoin (y :: rest)
  | x :: y :: rest => jsToString x ++ "," ++ jsArrayJoin (y :: rest)

end

/-- Template-literal rendering of a possibly-undefined value, as in the legacy
variant message string. -/
def jsTemplate : Option Json → String
  | none => "undefined"
  | some v => jsToString v

/-! ### UTF-8 and SHA-256 / HMAC-SHA256 (crypto.createHmac of server.js) -/

/-- UTF-8 encoding of a single code point, as a list of byte values. -/
def utf8EncodeChar (c : Nat) : List Nat :=
  if c < 128 then [c]
  else if c < 2048 then [192 + c / 64, 128 + c % 64]
  else if c < 65536 then [224 + c / 4096, 128 + (c / 64) % 64, 128 + c % 64]
  else [240 + c / 262144, 128 + (c / 4096) % 64, 128 + (c / 64) % 64, 128 + c % 64]

/-- UTF-8 bytes of a string, as Buffer.from(s, utf8) yields them. -/
def utf8Bytes (s : String) : List Nat :=
  (s.data.map (fun c => utf8EncodeChar c.toNat)).flatten

/-- Reduction to a 32-bit word. -/
def w32 (n : Nat) : Nat := n % 4294967296

/-- 32-bit right rotation (input assumed < 2^32). -/
def rotr (n x : Nat) : Nat := w32 ((x >>> n) ||| (x <<< (32 - n)))

def shaCh (x y z : Nat) : Nat := (x &&& y) ^^^ ((x ^^^ 4294967295) &&& z)

def shaMaj (x y z : Nat) : Nat := (x &&& y) ^^^ (x &&& z) ^^^ (y &&& z)

def bigSigma0 (x : Nat) : Nat := rotr 2 x ^^^ rotr 13 x ^^^ rotr 22 x

def bigSigma1 (x : Nat) : Nat := rotr 6 x ^^^ rotr 11 x ^^^ rotr 25 x

def smallSigma0 (x : Nat) : Nat := rotr 7 x ^^^ rotr 18 x ^^^ (x >>> 3)

def smallSigma1 (x : Nat) : Nat := rotr 17 x ^^^ rotr 19 x ^^^ (x >>> 10)

/-- The 64 SHA-256 round constants of FIPS 180-4, written in decimal. -/
def K256 : List Nat :=
  [1116352408, 1899447441, 3049323471, 3921009573,
   961987163, 1508970993, 2453635748, 2870763221,
   3624381080, 310598401, 607225278, 1426881987,
   1925078388, 2162078206, 2614888103, 3248222580,
   3835390401, 4022224774, 264347078, 604807628,
   770255983, 1249150122, 1555081692, 1996064986,
   2554220882, 2821834349, 2952996808, 3210313671,
   3336571891, 3584528711, 113926993, 338241895,
   666307205, 773529912, 1294757372, 1396182291,
   1695183700, 1986661051, 2177026350, 2456956037,
   2730485921, 2820302411, 3259730800, 3345764771,
   3516065817, 3600352804, 4094571909, 275423344,
   430227734, 506948616, 659060556, 883997877,
   958139571, 1322822218, 1537002063, 1747873779,
   1955562222, 2024104815, 2227730452, 2361852424,
   2428436474, 2756734187, 3204031479, 3329325298]

/-- Working state: eight 32-bit hash words. -/
structure Hash8 where
  a : Nat
  b : Nat
  c : Nat
  d : Nat
  e : Nat
  f : Nat
  g : Nat
  h : Nat

/-- The eight SHA-256 initial hash words of FIPS 180-4, in decimal. -/
def initH : Hash8 :=
  ⟨1779033703, 3144134277, 1013904242, 2773480762,
   1359893119, 2600822924, 528734635, 1541459225⟩

/-- SHA-256 message padding: append 0x80, zeros, and the 64-bit big-endian
bit length, to a multiple of 64 bytes. -/
def padMessage (msg : List Nat) : List Nat :=
  let len := msg.length
  let bitLen := len * 8
  msg ++ [128] ++ List.replicate ((119 - len % 64) % 64) 0 ++
    [w32 (bitLen / 72057594037927936) % 256, (bitLen / 281474976710656) % 256,
     (bitLen / 1099511627776) % 256, (bitLen / 4294967296) % 256,
     (bitLen / 16777216) % 256, (bitLen / 65536) % 256, (bitLen / 256) % 256, bitLen % 256]

/-- Big-endian 4-byte grouping of a byte list into 32-bit words. -/
def words4 : List Nat → List Nat
  | b0 :: b1 :: b2 :: b3 :: rest => (b0 * 16777216 + b1 * 65536 + b2 * 256 + b3) :: words4 rest
  | _ => []

/-- Fuel-driven 64-byte chunking. -/
def chunksFuel : Nat → List Nat → List (List Nat)
  | 0, _ => []
  | _, [] => []
  | fuel + 1, l => l.take 64 :: chunksFuel fuel (l.drop 64)

def chunks64 (l : List Nat) : List (List Nat) := chunksFuel (l.length + 1) l

/-- Extend a 16-word block to the 64-word message schedule. -/
def extendW (ws : List Nat) : List Nat :=
  (List.range 48).foldl
    (fun acc i =>
      acc ++ [w32 (smallSigma1 (acc.getD (i + 14) 0) + acc.getD (i + 9) 0 +
        smallSigma0 (acc.getD (i + 1) 0) + acc.getD i 0)])
    ws

/-- One SHA-256 compression round. -/
def roundStep (st : Hash8) (kw : Nat × Nat) : Hash8 :=
  let t1 := w32 (st.h + bigSigma1 st.e + shaCh st.e st.f st.g + kw.1 + kw.2)
  let t2 := w32 (bigSigma0 st.a + shaMaj st.a st.b st.c)
  ⟨w32 (t1 + t2), st.a, st.b, st.c, w32 (st.d + t1), st.e, st.f, st.g⟩

/-- Process one 512-bit block. -/
def compressBlock (st : Hash8) (block : List Nat) : Hash8 :=
  let ws := extendW (words4 block)
  let fin := (K256.zip ws).foldl roundStep st
  ⟨w32 (st.a + fin.a), w32 (st.b + fin.b), w32 (st.c + fin.c), w32 (st.d + fin.d),
   w32 (st.e + fin.e), w32 (st.f + fin.f), w32 (st.g + fin.g), w32 (st.h + fin.h)⟩

/-- Big-endian bytes of one 32-bit word. -/
def bytes4 (x : Nat) : List Nat :=
  [x / 16777216 % 256, x / 65536 % 256, x / 256 % 256, x % 256]

def digestBytes (st : Hash8) : List Nat :=
  bytes4 st.a ++ bytes4 st.b ++ bytes4 st.c ++ bytes4 st.d ++
  bytes4 st.e ++ bytes4 st.f ++ bytes4 st.g ++ bytes4 st.h

/-- SHA-256 of a byte list: 32 digest bytes. -/
def sha256 (msg : List Nat) : List Nat :=
  digestBytes ((chunks64 (padMessage msg)).foldl compressBlock initH)

/-- HMAC-SHA256 over byte lists (RFC 2104 with SHA-256, block size 64). -/
def hmacSha256 (key msg : List Nat) : List Nat :=
  let k0 := if 64 < key.length then sha256 key else key
  let kp := k0 ++ List.replicate (64 - k0.length) 0
  sha256 ((kp.map (fun b => b ^^^ 92)) ++ sha256 ((kp.map (fun b => b ^^^ 54)) ++ msg))

def hexDigit (n : Nat) : Char := Char.ofNat (if n < 10 then 48 + n else 87 + n)

/-- Lowercase hex rendering of a byte list (Buffer digest hex). -/
def hexOfBytes (l : List Nat) : String :=
  String.mk (l.flatMap (fun b => [hexDigit (b / 16 % 16), hexDigit (b % 16)]))

/-- hex(HMAC-SHA256(secret, payload)) over UTF-8 strings, exactly what
crypto.createHmac(sha256, secret).update(payload).digest(hex) returns. -/
def hexHmacSha256 (secret payload : String) : String :=
  hexOfBytes (hmacSha256 (utf8Bytes secret) (utf8Bytes payload))

/-! ### JSON parsing (express.json body parser)

A recursive-descent parser for the JSON subset exercised by the callback
payloads: objects, arrays, strings with the single-character escapes,
integer numbers, true/false/null.  Inputs outside the subset (\u escapes,
fractional or exponent numbers) fail to parse, which only narrows the set
of raw bodies the raw-level theorems speak about. -/

def lbraceChar : Char := Char.ofNat 123

def rbraceChar : Char := Char.ofNat 125

def isWsChar (c : Char) : Bool :=
  c = ' ' || c = Char.ofNat 9 || c = Char.ofNat 10 || c = Char.ofNat 13

def skipWs : List Char → List Char
  | [] => []
  | c :: cs => if isWsChar c then skipWs cs else c :: cs

def unescape (c : Char) : Option Char :=
  if c = '"' then some '"'
  else if c = '\\' then some '\\'
  else if c = '/' then some '/'
  else if c = 'n' then some (Char.ofNat 10)
  else if c = 't' then some (Char.ofNat 9)
  else if c = 'r' then some (Char.ofNat 13)
  else if c = 'b' then some (Char.ofNat 8)
  else if c = 'f' then some (Char.ofNat 12)
  else none

/-- Parse the remainder of a JSON string literal after the opening quote. -/
def parseStringBody : List Char → Option (List Char × List Char)
  | [] => none
  | c :: cs =>
    if c = '"' then some ([], cs)
    else if c = '\\' then
      match cs with
      | [] => none
      | e :: cs' =>
        match unescape e with
        | none => none
        | some u =>
          match parseStringBody cs' with
          | none => none
          | some (chars, rest) => some (u :: chars, rest)
    else if c.toNat < 32 then none
    else
      match parseStringBody cs with
      | none => none
      | some (chars, rest) => some (c :: chars, rest)

def takeDigits : List Char → (List Char × List Char)
  | [] => ([], [])
  | c :: cs =>
    if c.isDigit then
      let (ds, rest) := takeDigits cs
      (c :: ds, rest)
    else ([], c :: cs)

def digitsToNat (ds : List Char) : Nat :=
  ds.foldl (fun a c => a * 10 + (c.toNat - 48)) 0

/-- True when the rest of the input begins a fractional or exponent part
(outside the modelled integer subset). -/
def startsNumTail : List Char → Bool
  | [] => false
  | c :: _ => c = '.' || c = 'e' || c = 'E'

def leadingZero : List Char → Bool
  | '0' :: _ :: _ => true
  | _ => false

def parseNumber (cs : List Char) : Option (Json × List Char) :=
  match cs with
  | '-' :: rest =>
    match takeDigits rest with
    | ([], _) => none
    | (ds, rest') =>
      if startsNumTail rest' || leadingZero ds then none
      else some (Json.num (-(digitsToNat ds : Int)), rest')
  | _ =>
    match takeDigits cs with
    | ([], _) => none
    | (ds, rest') =>
      if startsNumTail rest' || leadingZero ds then none
      else some (Json.num (Int.ofNat (digitsToNat ds)), rest')

mutual

def parseVal : Nat → List Char → Option (Json × List Char)
  | 0, _ => none
  | fuel + 1, cs =>
    match skipWs cs with
    | [] => none
    | c :: rest =>
      if c = '"' then
        match parseStringBody rest with
        | some (chars, rest') => some (Json.str (String.mk chars), rest')
        | none => none
      else if c = lbraceChar then
        match skipWs rest with
        | c' :: rest' =>
          if c' = rbraceChar then some (Json.obj [], rest')
          else
            match parseObjFields fuel (c' :: rest') with
            | some (fs, r) => some (Json.obj fs, r)
            | none => none
        | [] => none
      else if c = '[' then
        match skipWs rest with
        | c' :: rest' =>
          if c' = ']' then some (Json.arr [], rest')
          else
            match parseArrItems fuel (c' :: rest') with
            | some (items, r) => some (Json.arr items, r)
            | none => none
        | [] => none
      else if c = 't' then
        match rest with
        | 'r' :: 'u' :: 'e' :: r => some (Json.bool true, r)
        | _ => none
      else if c = 'f' then
        match rest with
        | 'a' :: 'l' :: 's' :: 'e' :: r => some (Json.bool false, r)
        | _ => none
      else if c = 'n' then
        match rest with
        | 'u' :: 'l' :: 'l' :: r => some (Json.null, r)
        | _ => none
      else parseNumber (c :: rest)

def parseArrItems : Nat → List Char → Option (List Json × List Char)
  | 0, _ => none
  | fuel + 1, cs =>
    match parseVal fuel cs with
    | none => none
    | some (j, rest) =>
      match skipWs rest with
      | ',' :: rest' =>
        match parseArrItems fuel rest' with
        | some (items, r) => some (j :: items, r)
        | none => none
      | ']' :: rest' => some ([j], rest')
      | _ => none

def parseObjFields : Nat → List Char → Option (List (String × Json) × List Char)
  | 0, _ => none
  | fuel + 1, cs =>
    match skipWs cs with
    | [] => none
    | c :: rest =>
      if c = '"' then
        match parseStringBody rest with
        | none => none
        | some (kchars, rest1) =>
          match skipWs rest1 with
          | ':' :: rest2 =>
            match parseVal fuel rest2 with
            | none => none
            | some (v, rest3) =>
              match skipWs rest3 with
              | [] => none
              | ',' :: rest4 =>
                match parseObjFields fuel rest4 with
                | some (fs, r) => some ((String.mk kchars, v) :: fs, r)
                | none => none
              | c5 :: rest4 =>
                if c5 = rbraceChar then some ([(String.mk kchars, v)], rest4) else none
          | _ => none
      else none

end

/-- JSON.parse: the whole input must be one JSON value up to whitespace. -/
def jsonParse (s : String) : Option Json :=
  let cs := s.data
  match parseVal (2 * cs.length + 2) cs with
  | some (j, rest) => if skipWs rest = [] then some j else none
  | none => none

/-- The express.json body parser in its default strict mode: the first
non-whitespace byte must open an object or an array. -/
def expressJsonParse (raw : String) : Option Json :=
  match skipWs raw.data with
  | c :: _ => if c = lbraceChar || c = '[' then jsonParse raw else none
  | [] => none

/-! ### The /pi_callback pipeline of src/server.js -/

/-- An inbound request as the handler sees it: the two accepted signature
headers and the JSON body produced by express.json (none when absent). -/
structure Request where
  xSignature : Option String
  xPiSignature : Option String
  body : Option Json

structure Response where
  status : Nat
  body : Json

def errObj (msg : String) : Json := Json.obj [("error", Json.str msg)]

/-- req.get(x-signature) or req.get(x-pi-signature) or the empty string,
with JS truthiness on each alternative. -/
def headerSig (req : Request) : String :=
  match req.xSignature with
  | some s => if s = "" then req.xPiSignature.getD "" else s
  | none => req.xPiSignature.getD ""

/-- JS expression b or else the empty object, with JS truthiness. -/
def jsOrEmptyObj (b : Option Json) : Json :=
  match b with
  | some v => if truthy v then v else Json.obj []
  | none => Json.obj []

/-- Result of the HMAC digest computation inside the try block: ok with the
hex digest, or err when the crypto environment throws. -/
inductive HmacOutcome where
  | ok : String → HmacOutcome
  | err : HmacOutcome

def missingSigResp : Response := ⟨400, errObj "Missing signature header"⟩

def invalidSigResp : Response := ⟨401, errObj "Invalid signature"⟩

def verifyErrorResp : Response := ⟨500, errObj "Signature verification failed"⟩

/-- The verifySignature middleware, parameterized by the outcome of the
digest computation; none means next() (the request proceeds). -/
def verifySignatureWith (secret sig : String) (outcome : HmacOutcome) : Option Response :=
  if secret = "" then none
  else if sig = "" then some missingSigResp
  else
    match outcome with
    | HmacOutcome.ok computed =>
      let a := utf8Bytes computed
      let b := utf8Bytes sig
      if a.length ≠ b.length then some invalidSigResp
      else if a ≠ b then some invalidSigResp
      else none
    | HmacOutcome.err => some verifyErrorResp

/-- The verifySignature middleware of server.js with the digest computed as
the code computes it: hex HMAC-SHA256 of JSON.stringify(req.body or empty
object), keyed by PI_CALLBACK_SECRET (the empty string models an unset
secret, which is equally falsy in the JS check). -/
def verifySignature (secret : String) (req : Request) : Option Response :=
  verifySignatureWith secret (headerSig req)
    (HmacOutcome.ok (hexHmacSha256 secret (stringify (jsOrEmptyObj req.body))))

/-! ### Firestore orders collection: documents keyed by id, set with merge -/

abbrev Doc := List (String × Json)

abbrev Store := List (String × Doc)

def fieldLookup : Doc → String → Option Json
  | [], _ => none
  | (k, v) :: rest, key => if k = key then some v else fieldLookup rest key

def setField : Doc → String → Json → Doc
  | [], k, v => [(k, v)]
  | (k', v') :: rest, k, v =>
    if k' = k then (k, v) :: rest else (k', v') :: setField rest k v

mutual

/-- Firestore set with merge true, at one written value: the update mask is
built from the leaf field paths of the write, so a non-empty map written
over an existing map merges recursively; every other written value (a
primitive, an array, an empty map, or any write over a non-map) replaces the
old value wholly.  JS objects and Firestore maps cannot carry duplicate
keys; the list representation resolves a duplicate first-occurrence-wins,
consistently with getField. -/
def mergeValue : Json → Json → Json
  | Json.obj oldFs, Json.obj (f :: fs) => Json.obj (mergeFieldsGo oldFs [] (f :: fs))
  | _, new => new

/-- Merge the written fields into the old field map, left to right, skipping
keys already written (first occurrence wins in the duplicate-key artifact of
the list representation, which real data never exercises). -/
def mergeFieldsGo : List (String × Json) → List String → List (String × Json) →
    List (String × Json)
  | old, _, [] => old
  | old, seen, (k, v) :: rest =>
    if k ∈ seen then mergeFieldsGo old seen rest
    else
      mergeFieldsGo
        (setField old k
          (match fieldLookup old k with
           | some ov => mergeValue ov v
           | none => v))
        (k :: seen) rest

end

/-- Firestore set(..., merge true) on a whole document. -/
def mergeDoc (old new : Doc) : Doc :=
  mergeFieldsGo old [] new

def lookupStore : Store → String → Option Doc
  | [], _ => none
  | (k, d) :: rest, key => if k = key then some d else lookupStore rest key

/-- orders.doc(id).set(fields, merge true): create the document when the id
is absent, merge into it when present. -/
def storeSet : Store → String → Doc → Store
  | [], id, fields => [(id, fields)]
  | (k, d) :: rest, id, fields =>
    if k = id then (k, mergeDoc d fields) :: rest
    else (k, d) :: storeSet rest id fields

def storeKeys (s : Store) : List String := s.map Prod.fst

/-- payload.status or the literal unknown (JS truthiness on status). -/
def statusOf (payload : Json) : Json :=
  match getField payload "status" with
  | some s => if truthy s then s else Json.str "unknown"
  | none => Json.str "unknown"

/-- The field map written by the handler: status, updatedAt (the
server-assigned timestamp t), raw (the whole payload). -/
def writeFields (payload : Json) (t : Nat) : Doc :=
  [("status", statusOf payload), ("updatedAt", Json.num (Int.ofNat t)), ("raw", payload)]

def invalidPayloadResp : Response := ⟨400, errObj "Invalid payload, missing payment_id"⟩

def okResp (pid : Json) : Response :=
  ⟨200, Json.obj [("message", Json.str "Callback received"), ("payment_id", pid)]⟩

/-- The POST /pi_callback handler of server.js.  db models whether Firestore
was initialized, writeOk whether the set call succeeds (false: the write
throws and is only logged); t is the server timestamp of this request. -/
def piCallback (secret : String) (db writeOk : Bool) (t : Nat) (req : Request)
    (store : Store) : Response × Store :=
  match verifySignature secret req with
  | some r => (r, store)
  | none =>
    match req.body with
    | none => (invalidPayloadResp, store)
    | some payload =>
      if truthy payload then
        match getField payload "payment_id" with
        | none => (invalidPayloadResp, store)
        | some pid =>
          if truthy pid then
            (okResp pid,
             if db && writeOk then storeSet store (jsToString pid) (writeFields payload t)
             else store)
          else (invalidPayloadResp, store)
      else (invalidPayloadResp, store)

/-- The full express pipeline on the raw body bytes: express.json parses
(an all-whitespace body leaves req.body as the empty object, an unparsable
body is answered 400 by the middleware), then verifySignature, then the
handler. -/
def handleRaw (secret : String) (db writeOk : Bool) (t : Nat) (h1 h2 : Option String)
    (raw : String) (store : Store) : Response × Store :=
  if skipWs raw.data = [] then
    piCallback secret db writeOk t ⟨h1, h2, some (Json.obj [])⟩ store
  else
    match expressJsonParse raw with
    | none => (⟨400, errObj "entity.parse.failed"⟩, store)
    | some b => piCallback secret db writeOk t ⟨h1, h2, some b⟩ store

/-- n successive deliveries of the same request (same timestamp), threading
the store. -/
def iterDeliver (secret : String) (db writeOk : Bool) (t : Nat) (req : Request) :
    Nat → Store → Store
  | 0, s => s
  | n + 1, s => iterDeliver secret db writeOk t req n (piCallback secret db writeOk t req s).2

/-- The legacy variant (src/unnamed/part_000): no verification, no
validation, no persistence; always 200 with the template-literal message.
express.json leaves req.body as the empty object when nothing was parsed. -/
def legacyPiCallback (req : Request) (store : Store) : Response × Store :=
  let payment := req.body.getD (Json.obj [])
  (⟨200, Json.obj [("message",
      Json.str ("Callback received for payment: " ++ jsTemplate (getField payment "payment_id")))]⟩,
   store)

/-! ### Observation helpers used in the claim statements -/

def is2xx (n : Nat) : Bool := 200 ≤ n && n < 300

def docField (s : Store) (id fieldName : String) : Option Json :=
  match lookupStore s id with
  | some d => fieldLookup d fieldName
  | none => none

def docStatusStr (s : Store) (id : String) : Option String :=
  match docField s id "status" with
  | some (Json.str x) => some x
  | _ => none

def isJsonObj : Json → Bool
  | Json.obj _ => true
  | _ => false

/-- The structural condition under which the handler answers 400: the parsed
body is absent, not an object, or lacks a payment_id field. -/
def bodyLacksPaymentId (b : Option Json) : Prop :=
  b = none ∨ (∃ j, b = some j ∧ isJsonObj j = false) ∨
    (∃ j, b = some j ∧ getField j "payment_id" = none)

/-- The validation check of the handler as one boolean: body present, truthy,
with a truthy payment_id field. -/
def hasPaymentId (b : Option Json) : Bool :=
  match b with
  | none => false
  | some p =>
    truthy p &&
      (match getField p "payment_id" with
       | some v => truthy v
       | none => false)

/-! ### Basic lemmas about documents and the keyed store -/

theorem fieldLookup_setField_self (d : Doc) (k : String) (v : Json) :
    fieldLookup (setField d k v) k = some v := by
  induction d with
  | nil => simp [setField, fieldLookup]
  | cons kv rest ih =>
    by_cases h : kv.1 = k
    · simp [setField, fieldLookup, h]
    · simp [setField, fieldLookup, h, ih]

theorem fieldLookup_setField_other (d : Doc) (k k' : String) (v : Json) (h : k' ≠ k) :
    fieldLookup (setField d k v) k' = fieldLookup d k' := by
  induction d with
  | nil => simp [setField, fieldLookup, Ne.symm h]
  | cons kv rest ih =>
    by_cases hk : kv.1 = k
    · cases kv with
      | mk k0 v0 =>
        simp only at hk
        subst hk
        simp [setField, fieldLookup, Ne.symm h]
    · simp [setField, fieldLookup, hk, ih]

/-- A key already marked as written is untouched by the remaining merge
steps. -/
theorem fieldLookup_mergeFieldsGo_seen (new : List (String × Json)) :
    ∀ (old : List (String × Json)) (seen : List String) (key : String), key ∈ seen →
      fieldLookup (mergeFieldsGo old seen new) key = fieldLookup old key := by
  induction new with
  | nil => intro old seen key _; rfl
  | cons kv rest ih =>
    intro old seen key hkey
    cases kv with
    | mk k v =>
      show fieldLookup
        (if k ∈ seen then mergeFieldsGo old seen rest
         else mergeFieldsGo
           (setField old k
             (match fieldLookup old k with
              | some ov => mergeValue ov v
              | none => v)) (k :: seen) rest) key = fieldLookup old key
      by_cases hseen : k ∈ seen
      · rw [if_pos hseen, ih old seen key hkey]
      · have hne : key ≠ k := fun he => hseen (he ▸ hkey)
        rw [if_neg hseen, ih _ (k :: seen) key (List.mem_cons_of_mem k hkey),
          fieldLookup_setField_other _ _ _ _ hne]

/-- No written field carries the key: the merge leaves the key unchanged. -/
theorem fieldLookup_mergeFieldsGo_notin (new : List (String × Json)) :
    ∀ (old : List (String × Json)) (seen : List String) (key : String),
      (∀ kv ∈ new, kv.1 ≠ key) →
      fieldLookup (mergeFieldsGo old seen new) key = fieldLookup old key := by
  induction new with
  | nil => intro old seen key _; rfl
  | cons kv rest ih =>
    intro old seen key h
    cases kv with
    | mk k v =>
      have hk : k ≠ key := h (k, v) (List.mem_cons_self _ _)
      have hrest : ∀ kv ∈ rest, kv.1 ≠ key := fun kv hm => h kv (List.mem_cons_of_mem _ hm)
      show fieldLookup
        (if k ∈ seen then mergeFieldsGo old seen rest
         else mergeFieldsGo
           (setField old k
             (match fieldLookup old k with
              | some ov => mergeValue ov v
              | none => v)) (k :: seen) rest) key = fieldLookup old key
      by_cases hseen : k ∈ seen
      · rw [if_pos hseen, ih old seen key hrest]
      · rw [if_neg hseen, ih _ (k :: seen) key hrest,
          fieldLookup_setField_other _ _ _ _ (Ne.symm hk)]

theorem fieldLookup_mergeDoc_notin (new old : Doc) (key : String)
    (h : ∀ kv ∈ new, kv.1 ≠ key) :
    fieldLookup (mergeDoc old new) key = fieldLookup old key :=
  fieldLookup_mergeFieldsGo_notin new old [] key h

/-- The merged document at a written key: the written value merged into the
prior value of that key (first write occurrence wins). -/
theorem fieldLookup_mergeFieldsGo_first (new : List (String × Json)) :
    ∀ (old : List (String × Json)) (seen : List String) (key : String) (v : Json),
      key ∉ seen → fieldLookup new key = some v →
      fieldLookup (mergeFieldsGo old seen new) key =
        some (match fieldLookup old key with
              | some ov => mergeValue ov v
              | none => v) := by
  induction new with
  | nil => intro old seen key v _ hl; exact absurd hl (by simp [fieldLookup])
  | cons kv rest ih =>
    intro old seen key v hkey hl
    cases kv with
    | mk k w =>
      show fieldLookup
        (if k ∈ seen then mergeFieldsGo old seen rest
         else mergeFieldsGo
           (setField old k
             (match fieldLookup old k with
              | some ov => mergeValue ov w
              | none => w)) (k :: seen) rest) key = _
      by_cases hk : k = key
      · subst hk
        simp only [fieldLookup, if_pos rfl] at hl
        cases hl
        rw [if_neg hkey, fieldLookup_mergeFieldsGo_seen rest _ (k :: seen) k
            (List.mem_cons_self _ _), fieldLookup_setField_self]
      · have hl' : fieldLookup rest key = some v := by
          simpa [fieldLookup, hk] using hl
        by_cases hseen : k ∈ seen
        · rw [if_pos hseen, ih old seen key v hkey hl']
        · have hkey' : key ∉ k :: seen := by
            intro hm
            rcases List.mem_cons.mp hm with he | hm2
            · exact hk he.symm
            · exact hkey hm2
          rw [if_neg hseen, ih _ (k :: seen) key v hkey' hl',
            fieldLookup_setField_other _ _ _ _ (fun he => hk he.symm)]

theorem mergeDoc_writeFields_status (d : Doc) (p : Json) (t : Nat) :
    fieldLookup (mergeDoc d (writeFields p t)) "status" =
      some (match fieldLookup d "status" with
            | some ov => mergeValue ov (statusOf p)
            | none => statusOf p) :=
  fieldLookup_mergeFieldsGo_first (writeFields p t) d [] "status" (statusOf p)
    (by simp) rfl

theorem mergeDoc_writeFields_raw (d : Doc) (p : Json) (t : Nat) :
    fieldLookup (mergeDoc d (writeFields p t)) "raw" =
      some (match fieldLookup d "raw" with
            | some ov => mergeValue ov p
            | none => p) :=
  fieldLookup_mergeFieldsGo_first (writeFields p t) d [] "raw" p (by simp) rfl

/-- A written primitive (in particular a status string) always replaces the
prior value: only map-into-map writes merge. -/
theorem mergeValue_str (old : Json) (s : String) :
    mergeValue old (Json.str s) = Json.str s := by
  cases old <;> rfl

theorem mergeDoc_writeFields_status_unknown (d : Doc) (p : Json) (t : Nat)
    (hs : getField p "status" = none) :
    fieldLookup (mergeDoc d (writeFields p t)) "status" = some (Json.str "unknown") := by
  rw [mergeDoc_writeFields_status]
  have hsv : statusOf p = Json.str "unknown" := by simp [statusOf, hs]
  rw [hsv]
  cases hd : fieldLookup d "status" with
  | none => rfl
  | some ov => simp [mergeValue_str]

theorem mem_of_fieldLookup (l : List (String × Json)) (k : String) (v : Json)
    (h : fieldLookup l k = some v) : (k, v) ∈ l := by
  induction l with
  | nil => exact absurd h (by simp [fieldLookup])
  | cons kv rest ih =>
    cases kv with
    | mk k0 v0 =>
      by_cases hk : k0 = k
      · subst hk
        simp only [fieldLookup, if_pos rfl] at h
        cases h
        exact List.mem_cons_self _ _
      · simp only [fieldLookup, if_neg hk] at h
        exact List.mem_cons_of_mem _ (ih h)

/-- Writing back the value a key already holds leaves the field map
unchanged. -/
theorem setField_lookup_self (l : List (String × Json)) (k : String) (v : Json)
    (h : fieldLookup l k = some v) : setField l k v = l := by
  induction l with
  | nil => exact absurd h (by simp [fieldLookup])
  | cons kv rest ih =>
    cases kv with
    | mk k0 v0 =>
      by_cases hk : k0 = k
      · subst hk
        simp only [fieldLookup, if_pos rfl] at h
        cases h
        simp [setField]
      · simp only [fieldLookup, if_neg hk] at h
        simp [setField, hk, ih h]

/-- A merge whose every processed write entry already agrees with the target
map (and is idempotent under self-merge) is the identity. -/
theorem mergeFieldsGo_fixed (l : List (String × Json)) :
    ∀ (new : List (String × Json)) (seen : List String),
      (∀ k w, k ∉ seen → fieldLookup new k = some w →
        mergeValue w w = w ∧ fieldLookup l k = some w) →
      mergeFieldsGo l seen new = l := by
  intro new
  induction new with
  | nil => intro seen _; rfl
  | cons kv rest ih =>
    intro seen h
    cases kv with
    | mk k v =>
      show (if k ∈ seen then mergeFieldsGo l seen rest
            else mergeFieldsGo
              (setField l k
                (match fieldLookup l k with
                 | some ov => mergeValue ov v
                 | none => v)) (k :: seen) rest) = l
      by_cases hseen : k ∈ seen
      · rw [if_pos hseen]
        refine ih seen ?_
        intro k' w hk' hl'
        by_cases he : k = k'
        · exact absurd (he ▸ hseen) hk'
        · exact h k' w hk' (by simpa [fieldLookup, he] using hl')
      · rw [if_neg hseen]
        have hhead : fieldLookup ((k, v) :: rest) k = some v := by
          simp [fieldLookup]
        rcases h k v hseen hhead with ⟨hm, hl⟩
        rw [hl]
        show mergeFieldsGo (setField l k (mergeValue v v)) (k :: seen) rest = l
        rw [hm, setField_lookup_self l k v hl]
        refine ih (k :: seen) ?_
        intro k' w hk' hl'
        have hk'seen : k' ∉ seen := fun hm2 => hk' (List.mem_cons_of_mem _ hm2)
        have hne : k ≠ k' := fun he => hk' (he ▸ List.mem_cons_self _ _)
        exact h k' w hk'seen (by simpa [fieldLookup, hne] using hl')

/-- Merging a value into an equal value is the identity: repeated identical
writes converge. -/
theorem mergeValue_self : (v : Json) → mergeValue v v = v
  | Json.null => rfl
  | Json.bool _ => rfl
  | Json.num _ => rfl
  | Json.str _ => rfl
  | Json.arr _ => rfl
  | Json.obj [] => rfl
  | Json.obj (f :: rest) => by
    show Json.obj (mergeFieldsGo (f :: rest) [] (f :: rest)) = Json.obj (f :: rest)
    refine congrArg Json.obj (mergeFieldsGo_fixed (f :: rest) (f :: rest) [] ?_)
    intro k w _ hlook
    have hmem : (k, w) ∈ f :: rest := mem_of_fieldLookup _ _ _ hlook
    have hsz : sizeOf (k, w) < sizeOf (f :: rest) := List.sizeOf_lt_of_mem hmem
    exact ⟨mergeValue_self w, hlook⟩
termination_by v => sizeOf v
decreasing_by
  simp only [Prod.mk.sizeOf_spec] at hsz
  simp only [Json.obj.sizeOf_spec]
  omega

/-- Rewriting a document with exactly the fields it already holds changes
nothing: the write of an identical notification is idempotent. -/
theorem mergeDoc_writeFields_self (p : Json) (t : Nat) :
    mergeDoc (writeFields p t) (writeFields p t) = writeFields p t := by
  refine mergeFieldsGo_fixed (writeFields p t) (writeFields p t) [] ?_
  intro k w _ hlook
  exact ⟨mergeValue_self w, hlook⟩

theorem lookupField_eq_fieldLookup (l : List (String × Json)) (key : String) :
    getField.lookupField l key = fieldLookup l key := by
  induction l with
  | nil => rfl
  | cons kv rest ih =>
    cases kv with
    | mk k0 v0 =>
      by_cases h : k0 = key
      · simp [getField.lookupField, fieldLookup, h]
      · simp [getField.lookupField, fieldLookup, h, ih]

theorem getField_obj (l : List (String × Json)) (key : String) :
    getField (Json.obj l) key = fieldLookup l key :=
  lookupField_eq_fieldLookup l key

theorem lookupStore_storeSet_self (s : Store) (k : String) (d : Doc) :
    lookupStore (storeSet s k d) k =
      some (match lookupStore s k with
            | some old => mergeDoc old d
            | none => d) := by
  induction s with
  | nil => simp [storeSet, lookupStore]
  | cons e rest ih =>
    by_cases h : e.1 = k
    · simp [storeSet, lookupStore, h]
    · simp [storeSet, lookupStore, h, ih]

theorem lookupStore_storeSet_other (s : Store) (k k' : String) (d : Doc) (h : k' ≠ k) :
    lookupStore (storeSet s k d) k' = lookupStore s k' := by
  induction s with
  | nil => simp [storeSet, lookupStore, Ne.symm h]
  | cons e rest ih =>
    by_cases hk : e.1 = k
    · cases e with
      | mk k0 d0 =>
        simp only at hk
        subst hk
        simp [storeSet, lookupStore, Ne.symm h]
    · simp [storeSet, lookupStore, hk, ih]

theorem storeKeys_cons (e : String × Doc) (rest : Store) :
    storeKeys (e :: rest) = e.1 :: storeKeys rest := rfl

theorem storeKeys_nil : storeKeys [] = [] := rfl

theorem lookupStore_eq_none_iff (s : Store) (k : String) :
    lookupStore s k = none ↔ k ∉ storeKeys s := by
  induction s with
  | nil => simp [lookupStore, storeKeys_nil]
  | cons e rest ih =>
    rw [storeKeys_cons]
    by_cases h : e.1 = k
    · simp [lookupStore, h]
    · simp [lookupStore, h, List.mem_cons, Ne.symm h, ih]

theorem storeKeys_storeSet_mem (s : Store) (k : String) (d : Doc)
    (h : k ∈ storeKeys s) :
    storeKeys (storeSet s k d) = storeKeys s := by
  induction s with
  | nil => simp [storeKeys_nil] at h
  | cons e rest ih =>
    by_cases hk : e.1 = k
    · simp [storeSet, hk, storeKeys_cons]
    · have hmem : k ∈ storeKeys rest := by
        rw [storeKeys_cons] at h
        rcases List.mem_cons.mp h with h1 | h2
        · exact absurd h1.symm hk
        · exact h2
      have hstep : storeSet (e :: rest) k d = e :: storeSet rest k d := by
        cases e with
        | mk k0 d0 =>
          simp only at hk
          simp [storeSet, hk]
      rw [hstep, storeKeys_cons, storeKeys_cons, ih hmem]

theorem storeKeys_storeSet_notmem (s : Store) (k : String) (d : Doc)
    (h : k ∉ storeKeys s) :
    storeKeys (storeSet s k d) = storeKeys s ++ [k] := by
  induction s with
  | nil => simp [storeSet, storeKeys]
  | cons e rest ih =>
    rw [storeKeys_cons] at h
    have hk : e.1 ≠ k := by
      intro hh
      exact h (by simp [hh])
    have hr : k ∉ storeKeys rest := by
      intro hh
      exact h (List.mem_cons_of_mem _ hh)
    have hstep : storeSet (e :: rest) k d = e :: storeSet rest k d := by
      cases e with
      | mk k0 d0 =>
        simp only at hk
        simp [storeSet, hk]
    rw [hstep, storeKeys_cons, storeKeys_cons, ih hr]
    rfl

/-! ### Reduction lemmas for the handler -/

theorem piCallback_ok (secret : String) (db writeOk : Bool) (t : Nat) (req : Request)
    (store : Store) (p pid : Json)
    (hv : verifySignature secret req = none)
    (hb : req.body = some p) (hp : truthy p = true)
    (hg : getField p "payment_id" = some pid) (ht : truthy pid = true) :
    piCallback secret db writeOk t req store =
      (okResp pid,
       if db && writeOk then storeSet store (jsToString pid) (writeFields p t) else store) := by
  simp [piCallback, hv, hb, hp, hg, ht]

theorem hasPaymentId_false_of_lacks (b : Option Json) (h : bodyLacksPaymentId b) :
    hasPaymentId b = false := by
  rcases h with h0 | ⟨j, hj, hobj⟩ | ⟨j, hj, hfield⟩
  · simp [h0, hasPaymentId]
  · subst hj
    have : getField j "payment_id" = none := by
      cases j <;> simp_all [isJsonObj, getField]
    simp [hasPaymentId, this]
  · subst hj
    simp [hasPaymentId, hfield]

theorem piCallback_invalid (secret : String) (db writeOk : Bool) (t : Nat) (req : Request)
    (store : Store)
    (hv : verifySignature secret req = none)
    (hinv : hasPaymentId req.body = false) :
    piCallback secret db writeOk t req store = (invalidPayloadResp, store) := by
  cases hb : req.body with
  | none => simp [piCallback, hv, hb]
  | some p =>
    rw [hb] at hinv
    by_cases hp : truthy p = true
    · cases hg : getField p "payment_id" with
      | none => simp [piCallback, hv, hb, hp, hg]
      | some pid =>
        have ht : truthy pid = false := by
          simp [hasPaymentId, hp, hg] at hinv
          exact hinv
        simp [piCallback, hv, hb, hp, hg, ht]
    · have hp' : truthy p = false := by
        cases hq : truthy p
        · rfl
        · exact absurd hq hp
      simp [piCallback, hv, hb, hp']

theorem piCallback_store_unchanged_of_lacks (secret : String) (db writeOk : Bool) (t : Nat)
    (req : Request) (store : Store) (hinv : hasPaymentId req.body = false) :
    (piCallback secret db writeOk t req store).2 = store := by
  cases hv : verifySignature secret req with
  | some r => simp [piCallback, hv]
  | none => rw [piCallback_invalid secret db writeOk t req store hv hinv]

theorem piCallback_ok_write (secret : String) (t : Nat) (req : Request)
    (store : Store) (p pid : Json)
    (hv : verifySignature secret req = none)
    (hb : req.body = some p) (hp : truthy p = true)
    (hg : getField p "payment_id" = some pid) (ht : truthy pid = true) :
    piCallback secret true true t req store =
      (okResp pid, storeSet store (jsToString pid) (writeFields p t)) := by
  rw [piCallback_ok secret true true t req store p pid hv hb hp hg ht]
  rfl

theorem docField_storeSet_writeFields_status (store : Store) (id : String) (p : Json)
    (t : Nat) (hs : getField p "status" = none) :
    docField (storeSet store id (writeFields p t)) id "status" =
      some (Json.str "unknown") := by
  cases h : lookupStore store id with
  | none =>
    simp [docField, lookupStore_storeSet_self, h, writeFields, fieldLookup, statusOf, hs]
  | some old =>
    simp [docField, lookupStore_storeSet_self, h,
      mergeDoc_writeFields_status_unknown old p t hs]

theorem docField_storeSet_writeFields_raw_new (store : Store) (id : String) (p : Json)
    (t : Nat) (hl : lookupStore store id = none) :
    docField (storeSet store id (writeFields p t)) id "raw" = some p := by
  simp [docField, lookupStore_storeSet_self, hl, writeFields, fieldLookup]

theorem docField_storeSet_writeFields_raw_merge (store : Store) (id : String) (p : Json)
    (t : Nat) (d : Doc) (hl : lookupStore store id = some d) :
    docField (storeSet store id (writeFields p t)) id "raw" =
      some (match fieldLookup d "raw" with
            | some ov => mergeValue ov p
            | none => p) := by
  simp [docField, lookupStore_storeSet_self, hl, mergeDoc_writeFields_raw]

theorem mem_storeKeys_of_lookup (s : Store) (k : String) (d : Doc)
    (h : lookupStore s k = some d) : k ∈ storeKeys s := by
  by_contra hk
  rw [(lookupStore_eq_none_iff s k).mpr hk] at h
  exact Option.noConfusion h

theorem verifySignatureWith_ok_cases (secret sig computed : String)
    (h1 : secret ≠ "") (h2 : sig ≠ "") :
    verifySignatureWith secret sig (HmacOutcome.ok computed) =
      (if utf8Bytes computed = utf8Bytes sig then none else some invalidSigResp) := by
  unfold verifySignatureWith
  rw [if_neg h1, if_neg h2]
  by_cases hl : (utf8Bytes computed).length = (utf8Bytes sig).length
  · by_cases he : utf8Bytes computed = utf8Bytes sig
    · simp [hl, he]
    · simp [hl, he]
  · have hne : utf8Bytes computed ≠ utf8Bytes sig := fun he => hl (by rw [he])
    simp [hl, hne]

/-- A successful parseVal on input whose first significant character opens
an object or an array yields an object or array value, hence a truthy one. -/
theorem parseVal_truthy (fuel : Nat) (cs : List Char) (j : Json) (rest : List Char)
    (c : Char) (rest0 : List Char)
    (hws : skipWs cs = c :: rest0) (hc : c = lbraceChar ∨ c = '[')
    (hp : parseVal fuel cs = some (j, rest)) : truthy j = true := by
  cases fuel with
  | zero => exact absurd hp (by simp [parseVal])
  | succ f =>
    unfold parseVal at hp
    rw [hws] at hp
    rcases hc with hc | hc
    · subst hc
      simp only [show (lbraceChar = '"') = False from by simp [lbraceChar], if_false,
        if_pos rfl, if_true] at hp
      rcases hws2 : skipWs rest0 with _ | ⟨c', rest'⟩
      · rw [hws2] at hp; exact absurd hp (by simp)
      · simp only [hws2] at hp
        by_cases hrb : c' = rbraceChar
        · rw [if_pos hrb] at hp
          cases hp
          rfl
        · rw [if_neg hrb] at hp
          rcases hpo : parseObjFields f (c' :: rest') with _ | ⟨fs, r⟩
          · rw [hpo] at hp; exact absurd hp (by simp)
          · rw [hpo] at hp
            cases hp
            rfl
    · subst hc
      simp only [show (('[' : Char) = '"') = False from by simp,
        show (('[' : Char) = lbraceChar) = False from by simp [lbraceChar],
        if_false, if_pos rfl, if_true] at hp
      rcases hws2 : skipWs rest0 with _ | ⟨c', rest'⟩
      · rw [hws2] at hp; exact absurd hp (by simp)
      · simp only [hws2] at hp
        by_cases hrb : c' = ']'
        · rw [if_pos hrb] at hp
          cases hp
          rfl
        · rw [if_neg hrb] at hp
          rcases hpo : parseArrItems f (c' :: rest') with _ | ⟨items, r⟩
          · rw [hpo] at hp; exact absurd hp (by simp)
          · rw [hpo] at hp
            cases hp
            rfl

/-- Anything the strict express.json parser produces is an object or array,
so it is truthy in particular. -/
theorem truthy_of_expressJsonParse (raw : String) (body : Json)
    (h : expressJsonParse raw = some body) : truthy body = true := by
  unfold expressJsonParse at h
  rcases hws : skipWs raw.data with _ | ⟨c, rest0⟩
  · rw [hws] at h
    exact absurd h (by simp)
  · simp only [hws] at h
    by_cases hc : (c = lbraceChar || c = '[') = true
    · rw [if_pos hc] at h
      have hc' : c = lbraceChar ∨ c = '[' := by
        simpa [Bool.or_eq_true, decide_eq_true_eq] using hc
      simp only [jsonParse] at h
      rcases hpv : parseVal (2 * raw.data.length + 2) raw.data with _ | ⟨j, rest⟩
      · rw [hpv] at h; exact absurd h (by simp)
      · simp only [hpv] at h
        by_cases hr : skipWs rest = []
        · rw [if_pos hr] at h
          cases h
          exact parseVal_truthy _ _ _ _ c rest0 hws hc' hpv
        · rw [if_neg hr] at h; exact absurd h (by simp)
    · rw [if_neg hc] at h; exact absurd h (by simp)

theorem sha256_ne_nil (msg : List Nat) : sha256 msg ≠ [] := by
  simp [sha256, digestBytes, bytes4]

theorem hmacSha256_ne_nil (key msg : List Nat) : hmacSha256 key msg ≠ [] :=
  sha256_ne_nil _

theorem hexOfBytes_ne_empty (l : List Nat) (h : l ≠ []) : hexOfBytes l ≠ "" := by
  cases l with
  | nil => exact absurd rfl h
  | cons b rest =>
    intro he
    have hd : ((b :: rest).flatMap (fun b => [hexDigit (b / 16 % 16), hexDigit (b % 16)])) =
        ([] : List Char) := congrArg String.data he
    simp at hd

theorem hexHmacSha256_ne_empty (secret payload : String) : hexHmacSha256 secret payload ≠ "" :=
  hexOfBytes_ne_empty _ (hmacSha256_ne_nil _ _)

/-- With a secret and a non-empty header, the middleware authenticates the
request exactly when the header bytes equal the bytes of the hex HMAC-SHA256
of the canonical re-serialization of the parsed body. -/
theorem verifySignature_sig_iff (secret sig : String) (b : Json)
    (h1 : secret ≠ "") (h2 : sig ≠ "") (hb : truthy b = true) :
    (verifySignature secret ⟨some sig, none, some b⟩ = none ↔
      utf8Bytes sig = utf8Bytes (hexHmacSha256 secret (stringify b))) := by
  unfold verifySignature
  have hh : headerSig ⟨some sig, none, some b⟩ = sig := by
    simp [headerSig, h2]
  have hj : jsOrEmptyObj (some b) = b := by
    simp [jsOrEmptyObj, hb]
  rw [hh, hj, verifySignatureWith_ok_cases _ _ _ h1 h2]
  by_cases he : utf8Bytes (hexHmacSha256 secret (stringify b)) = utf8Bytes sig
  · rw [if_pos he]
    exact iff_of_true rfl he.symm
  · rw [if_neg he]
    exact iff_of_false (by simp) fun hx => he hx.symm

/-! ### Claim theorems -/

/-- C4 counterexample: with secret abc, a raw body with a leading space
parses to the payment object, its canonical re-serialization differs from
the raw bytes, and the header hex(HMAC-SHA256(abc, rawBody)) is answered
401 rather than authenticated: the code signs JSON.stringify(req.body), not
the raw body bytes as received. -/
theorem c4_counterexample :
    expressJsonParse " \x7b\"payment_id\":\"1\"\x7d" =
      some (Json.obj [("payment_id", Json.str "1")]) ∧
    stringify (Json.obj [("payment_id", Json.str "1")]) ≠ " \x7b\"payment_id\":\"1\"\x7d" ∧
    (verifySignature "abc"
        ⟨some (hexHmacSha256 "abc" " \x7b\"payment_id\":\"1\"\x7d"), none,
          some (Json.obj [("payment_id", Json.str "1")])⟩).map Response.status = some 401 ∧
    verifySignature "abc"
        ⟨some (hexHmacSha256 "abc" " \x7b\"payment_id\":\"1\"\x7d"), none,
          some (Json.obj [("payment_id", Json.str "1")])⟩ ≠ none := by
  have hmap : (verifySignature "abc"
      ⟨some (hexHmacSha256 "abc" " \x7b\"payment_id\":\"1\"\x7d"), none,
        some (Json.obj [("payment_id", Json.str "1")])⟩).map Response.status = some 401 := rfl
  refine ⟨rfl, by decide, hmap, fun hnone => ?_⟩
  rw [hnone] at hmap
  exact Option.noConfusion hmap

/-- C4 amended: the verifier accepts exactly the hex HMAC-SHA256, keyed by
the secret, of JSON.stringify of the parsed request body; the signature
hex(HMAC-SHA256(secret, rawBody)) over the raw received bytes is
authenticated precisely when the raw body equals that canonical
re-serialization. -/
theorem c4_amended_hmac_over_canonical_body
    (secret raw sig : String) (body : Json)
    (h1 : secret ≠ "") (hparse : expressJsonParse raw = some body) (h2 : sig ≠ "") :
    (verifySignature secret ⟨some sig, none, some body⟩ = none ↔
      utf8Bytes sig = utf8Bytes (hexHmacSha256 secret (stringify body))) ∧
    (stringify body = raw →
      verifySignature secret ⟨some (hexHmacSha256 secret raw), none, some body⟩ = none) := by
  have hb := truthy_of_expressJsonParse raw body hparse
  refine ⟨verifySignature_sig_iff secret sig body h1 h2 hb, ?_⟩
  intro hcanon
  exact (verifySignature_sig_iff secret (hexHmacSha256 secret raw) body h1
    (hexHmacSha256_ne_empty _ _) hb).mpr (by rw [hcanon])

theorem c4_witness :
    verifySignature "abc"
      ⟨some (hexHmacSha256 "abc" "\x7b\"payment_id\":\"1\"\x7d"), none,
        some (Json.obj [("payment_id", Json.str "1")])⟩ = none :=
  (c4_amended_hmac_over_canonical_body "abc" "\x7b\"payment_id\":\"1\"\x7d" "00"
    (Json.obj [("payment_id", Json.str "1")]) (by decide) rfl (by decide)).2 rfl

/-- C1: once signature verification lets the request through and the payload
carries a (truthy) payment_id, the response is 200 and its body echoes the
payment_id, identically whether the store writes, fails to write, or was
never initialized: persistence never changes the HTTP response. -/
theorem c1_ack_despite_persistence
    (secret : String) (db writeOk db' writeOk' : Bool) (t t' : Nat) (req : Request)
    (store store' : Store) (p pid : Json)
    (hv : verifySignature secret req = none)
    (hb : req.body = some p) (hp : truthy p = true)
    (hg : getField p "payment_id" = some pid) (ht : truthy pid = true) :
    (piCallback secret db writeOk t req store).1.status = 200 ∧
    getField (piCallback secret db writeOk t req store).1.body "payment_id" = some pid ∧
    (piCallback secret db writeOk t req store).1 =
      (piCallback secret db' writeOk' t' req store').1 := by
  rw [piCallback_ok secret db writeOk t req store p pid hv hb hp hg ht,
      piCallback_ok secret db' writeOk' t' req store' p pid hv hb hp hg ht]
  exact ⟨rfl, by simp [okResp, getField, getField.lookupField], rfl⟩

theorem c1_witness :
    (piCallback "" true false 5 ⟨none, none, some (Json.obj [("payment_id", Json.str "p1")])⟩
      []).1.status = 200 ∧
    getField (piCallback "" true false 5
        ⟨none, none, some (Json.obj [("payment_id", Json.str "p1")])⟩ []).1.body "payment_id" =
      some (Json.str "p1") ∧
    (piCallback "" true false 5 ⟨none, none, some (Json.obj [("payment_id", Json.str "p1")])⟩
        []).1 =
      (piCallback "" false true 9 ⟨none, none, some (Json.obj [("payment_id", Json.str "p1")])⟩
        [("q", [])]).1 :=
  c1_ack_despite_persistence "" true false false true 5 9
    ⟨none, none, some (Json.obj [("payment_id", Json.str "p1")])⟩ [] [("q", [])]
    (Json.obj [("payment_id", Json.str "p1")]) (Json.str "p1") rfl rfl rfl rfl (by decide)

/-- C2 counterexample: with secret abc configured and no signature header at
all on a structurally valid body, server.js answers 400, not the claimed
401. -/
theorem c2_counterexample :
    (verifySignature "abc"
        ⟨none, none, some (Json.obj [("payment_id", Json.str "1")])⟩).map Response.status =
      some 400 ∧ (400 : Nat) ≠ 401 :=
  ⟨rfl, by decide⟩

/-- C2 amended: with a secret configured, an absent or empty signature header
is answered 400, a present but non-matching signature 401, and a request
that passed the middleware but fails payload validation 400; 400 and 401
are non-2xx. -/
theorem c2_amended_rejections_non2xx :
    (∀ (secret : String) (req : Request), secret ≠ "" → headerSig req = "" →
      (verifySignature secret req).map Response.status = some 400) ∧
    (∀ (secret : String) (req : Request), secret ≠ "" → headerSig req ≠ "" →
      utf8Bytes (headerSig req) ≠
        utf8Bytes (hexHmacSha256 secret (stringify (jsOrEmptyObj req.body))) →
      (verifySignature secret req).map Response.status = some 401) ∧
    (∀ (secret : String) (db writeOk : Bool) (t : Nat) (req : Request) (store : Store),
      verifySignature secret req = none → hasPaymentId req.body = false →
      (piCallback secret db writeOk t req store).1.status = 400) ∧
    is2xx 400 = false ∧ is2xx 401 = false := by
  refine ⟨?_, ?_, ?_, by decide, by decide⟩
  · intro secret req h1 h2
    unfold verifySignature verifySignatureWith
    rw [if_neg h1, if_pos h2]
    rfl
  · intro secret req h1 h2 h3
    unfold verifySignature
    rw [verifySignatureWith_ok_cases _ _ _ h1 h2, if_neg (Ne.symm h3)]
    rfl
  · intro secret db writeOk t req store hv hval
    rw [piCallback_invalid secret db writeOk t req store hv hval]
    rfl

theorem c2_witness :
    (verifySignature "abc" ⟨some "", some "", some (Json.obj [])⟩).map Response.status =
      some 400 ∧
    (verifySignature "abc" ⟨some "00", none, some (Json.obj [])⟩).map Response.status =
      some 401 ∧
    (piCallback "abc" true true 1
        ⟨some (hexHmacSha256 "abc" "\x7b\x7d"), none, some (Json.obj [])⟩ []).1.status = 400 :=
  ⟨c2_amended_rejections_non2xx.1 "abc" ⟨some "", some "", some (Json.obj [])⟩
     (by decide) rfl,
   c2_amended_rejections_non2xx.2.1 "abc" ⟨some "00", none, some (Json.obj [])⟩
     (by decide) (by decide) (by decide),
   c2_amended_rejections_non2xx.2.2.1 "abc" true true 1
     ⟨some (hexHmacSha256 "abc" "\x7b\x7d"), none, some (Json.obj [])⟩ [] (by rfl) rfl⟩

/-- C6: a request whose body is absent, not an object, or lacks a payment_id
field never changes the store, and when the signature middleware let it
through it is answered 400. -/
theorem c6_invalid_payload_400_no_write
    (secret : String) (db writeOk : Bool) (t : Nat) (req : Request) (store : Store)
    (hinv : bodyLacksPaymentId req.body) :
    (piCallback secret db writeOk t req store).2 = store ∧
    (verifySignature secret req = none →
      (piCallback secret db writeOk t req store).1.status = 400) := by
  have hfalse := hasPaymentId_false_of_lacks req.body hinv
  refine ⟨piCallback_store_unchanged_of_lacks secret db writeOk t req store hfalse, ?_⟩
  intro hv
  rw [piCallback_invalid secret db writeOk t req store hv hfalse]
  rfl

theorem c6_witness :
    (piCallback "" true true 3 ⟨none, none, some (Json.obj [("status", Json.str "APPROVED")])⟩
        [("a", [("status", Json.str "OLD")])]).2 = [("a", [("status", Json.str "OLD")])] ∧
    (piCallback "" true true 3 ⟨none, none, some (Json.obj [("status", Json.str "APPROVED")])⟩
        [("a", [("status", Json.str "OLD")])]).1.status = 400 :=
  ⟨(c6_invalid_payload_400_no_write "" true true 3
      ⟨none, none, some (Json.obj [("status", Json.str "APPROVED")])⟩
      [("a", [("status", Json.str "OLD")])]
      (Or.inr (Or.inr ⟨Json.obj [("status", Json.str "APPROVED")], rfl, rfl⟩))).1,
   (c6_invalid_payload_400_no_write "" true true 3
      ⟨none, none, some (Json.obj [("status", Json.str "APPROVED")])⟩
      [("a", [("status", Json.str "OLD")])]
      (Or.inr (Or.inr ⟨Json.obj [("status", Json.str "APPROVED")], rfl, rfl⟩))).2 rfl⟩

/-- C7: with no configured secret the middleware always calls next() for
every request, and the handler outcome does not depend on the signature
headers in any way. -/
theorem c7_unconfigured_skips_verification :
    (∀ req : Request, verifySignature "" req = none) ∧
    (∀ (db writeOk : Bool) (t : Nat) (b : Option Json) (store : Store)
        (h1 h2 h1' h2' : Option String),
      piCallback "" db writeOk t ⟨h1, h2, b⟩ store =
        piCallback "" db writeOk t ⟨h1', h2', b⟩ store) :=
  ⟨fun _ => rfl, fun _ _ _ _ _ _ _ _ _ => rfl⟩

/-- C8: when the digest computation inside the try block throws, the
middleware answers 500: a server error (5xx), not a client error (4xx). -/
theorem c8_exception_maps_to_500
    (secret sig : String) (h1 : secret ≠ "") (h2 : sig ≠ "") :
    verifySignatureWith secret sig HmacOutcome.err = some verifyErrorResp ∧
    verifyErrorResp.status = 500 ∧
    500 ≤ verifyErrorResp.status ∧ verifyErrorResp.status < 600 ∧
    ¬ (400 ≤ verifyErrorResp.status ∧ verifyErrorResp.status < 500) := by
  refine ⟨?_, rfl, by decide, by decide, by decide⟩
  unfold verifySignatureWith
  rw [if_neg h1, if_neg h2]

theorem c8_witness :
    verifySignatureWith "abc" "xyz" HmacOutcome.err = some verifyErrorResp ∧
    verifyErrorResp.status = 500 ∧
    500 ≤ verifyErrorResp.status ∧ verifyErrorResp.status < 600 ∧
    ¬ (400 ≤ verifyErrorResp.status ∧ verifyErrorResp.status < 500) :=
  c8_exception_maps_to_500 "abc" "xyz" (by decide) (by decide)

/-- C9: a valid notification whose payload has no status field is not
rejected: it is acknowledged with 200 and the stored record has the literal
status unknown. -/
theorem c9_absent_status_stored_unknown
    (secret : String) (t : Nat) (req : Request) (store : Store) (p pid : Json)
    (hv : verifySignature secret req = none)
    (hb : req.body = some p) (hp : truthy p = true)
    (hg : getField p "payment_id" = some pid) (ht : truthy pid = true)
    (hs : getField p "status" = none) :
    (piCallback secret true true t req store).1.status = 200 ∧
    docField (piCallback secret true true t req store).2 (jsToString pid) "status" =
      some (Json.str "unknown") := by
  rw [piCallback_ok_write secret t req store p pid hv hb hp hg ht]
  refine ⟨rfl, ?_⟩
  rw [show ((okResp pid, storeSet store (jsToString pid) (writeFields p t)) :
        Response × Store).2 = storeSet store (jsToString pid) (writeFields p t) from rfl,
      docField_storeSet_writeFields_status store (jsToString pid) p t hs]

theorem c9_witness :
    (piCallback "" true true 4 ⟨none, none, some (Json.obj [("payment_id", Json.str "p9")])⟩
        []).1.status = 200 ∧
    docField (piCallback "" true true 4
        ⟨none, none, some (Json.obj [("payment_id", Json.str "p9")])⟩ []).2 "p9" "status" =
      some (Json.str "unknown") :=
  c9_absent_status_stored_unknown "" 4
    ⟨none, none, some (Json.obj [("payment_id", Json.str "p9")])⟩ []
    (Json.obj [("payment_id", Json.str "p9")]) (Json.str "p9") rfl rfl rfl rfl (by decide) rfl

/-- C3 counterexample: delivering payment x with status APPROVED and then a
second valid delivery for x with the status field omitted leaves the stored
status unknown, not APPROVED: every write includes a status field (defaulted
to unknown), so the merge does not preserve the prior status. -/
theorem c3_counterexample :
    docStatusStr
      (piCallback "" true true 2
        ⟨none, none, some (Json.obj [("payment_id", Json.str "x"),
            ("raw", Json.obj [("k", Json.str "v")])])⟩
        (piCallback "" true true 1
          ⟨none, none, some (Json.obj [("payment_id", Json.str "x"),
              ("status", Json.str "APPROVED")])⟩ []).2).2 "x" = some "unknown" ∧
    (some "unknown" : Option String) ≠ some "APPROVED" ∧
    docStatusStr
      (piCallback "" true true 1
        ⟨none, none, some (Json.obj [("payment_id", Json.str "x"),
            ("status", Json.str "APPROVED")])⟩ []).2 "x" = some "APPROVED" :=
  ⟨rfl, by decide, rfl⟩

/-- C3 amended: after a valid APPROVED delivery for a transaction_id new to
the store, followed by a valid delivery for the same id with status omitted,
the stored status is the literal unknown (the write always sets status),
while raw becomes the recursive Firestore merge of the prior payload with
the new one: subfields of raw absent from the later payload retain their
prior values, and document fields outside the written set status, updatedAt,
raw are likewise preserved. -/
theorem c3_amended_merge_per_written_field
    (secret : String) (t1 t2 : Nat) (req1 req2 : Request) (p1 p2 pid : Json) (store : Store)
    (hv1 : verifySignature secret req1 = none) (hb1 : req1.body = some p1)
    (hp1 : truthy p1 = true) (hg1 : getField p1 "payment_id" = some pid)
    (ht : truthy pid = true)
    (_hs1 : getField p1 "status" = some (Json.str "APPROVED"))
    (hv2 : verifySignature secret req2 = none) (hb2 : req2.body = some p2)
    (hp2 : truthy p2 = true) (hg2 : getField p2 "payment_id" = some pid)
    (hs2 : getField p2 "status" = none)
    (hnew : lookupStore store (jsToString pid) = none) :
    docField (piCallback secret true true t2 req2
        (piCallback secret true true t1 req1 store).2).2 (jsToString pid) "status" =
      some (Json.str "unknown") ∧
    docField (piCallback secret true true t2 req2
        (piCallback secret true true t1 req1 store).2).2 (jsToString pid) "raw" =
      some (mergeValue p1 p2) ∧
    (∀ (fs1 : List (String × Json)) (f2 : String × Json) (fs2 : List (String × Json))
        (k : String) (w : Json),
      p1 = Json.obj fs1 → p2 = Json.obj (f2 :: fs2) →
      fieldLookup fs1 k = some w → (∀ kv ∈ f2 :: fs2, kv.1 ≠ k) →
      getField (mergeValue p1 p2) k = some w) ∧
    (∀ (store' : Store) (d0 : Doc) (k : String) (w : Json),
      lookupStore store' (jsToString pid) = some d0 →
      k ≠ "status" → k ≠ "updatedAt" → k ≠ "raw" →
      fieldLookup d0 k = some w →
      docField (piCallback secret true true t2 req2 store').2 (jsToString pid) k = some w) := by
  have h1 := piCallback_ok_write secret t1 req1 store p1 pid hv1 hb1 hp1 hg1 ht
  have hl1 : lookupStore (storeSet store (jsToString pid) (writeFields p1 t1))
      (jsToString pid) = some (writeFields p1 t1) := by
    rw [lookupStore_storeSet_self, hnew]
  refine ⟨?_, ?_, ?_, ?_⟩
  · rw [h1]
    show docField (piCallback secret true true t2 req2
      (storeSet store (jsToString pid) (writeFields p1 t1))).2 (jsToString pid) "status" = _
    rw [piCallback_ok_write secret t2 req2 _ p2 pid hv2 hb2 hp2 hg2 ht]
    show docField (storeSet (storeSet store (jsToString pid) (writeFields p1 t1))
      (jsToString pid) (writeFields p2 t2)) (jsToString pid) "status" = _
    rw [docField_storeSet_writeFields_status _ _ p2 t2 hs2]
  · rw [h1]
    show docField (piCallback secret true true t2 req2
      (storeSet store (jsToString pid) (writeFields p1 t1))).2 (jsToString pid) "raw" = _
    rw [piCallback_ok_write secret t2 req2 _ p2 pid hv2 hb2 hp2 hg2 ht]
    show docField (storeSet (storeSet store (jsToString pid) (writeFields p1 t1))
      (jsToString pid) (writeFields p2 t2)) (jsToString pid) "raw" = _
    rw [docField_storeSet_writeFields_raw_merge _ _ p2 t2 _ hl1]
    show some (match fieldLookup (writeFields p1 t1) "raw" with
               | some ov => mergeValue ov p2
               | none => p2) = some (mergeValue p1 p2)
    rfl
  · intro fs1 f2 fs2 k w hp1e hp2e hfl hnot
    subst hp1e
    subst hp2e
    show getField (Json.obj (mergeFieldsGo fs1 [] (f2 :: fs2))) k = some w
    rw [getField_obj, fieldLookup_mergeFieldsGo_notin (f2 :: fs2) fs1 [] k hnot]
    exact hfl
  · intro store' d0 k w hl hk1 hk2 hk3 hf
    rw [piCallback_ok_write secret t2 req2 store' p2 pid hv2 hb2 hp2 hg2 ht]
    show docField (storeSet store' (jsToString pid) (writeFields p2 t2)) (jsToString pid) k =
      some w
    unfold docField
    rw [lookupStore_storeSet_self, hl]
    show fieldLookup (mergeDoc d0 (writeFields p2 t2)) k = some w
    rw [fieldLookup_mergeDoc_notin _ d0 k ?_]
    · exact hf
    · intro kv hm
      simp only [writeFields, List.mem_cons, List.not_mem_nil, or_false] at hm
      rcases hm with rfl | rfl | rfl
      · exact Ne.symm hk1
      · exact Ne.symm hk2
      · exact Ne.symm hk3

theorem c3_witness :
    docField (piCallback "" true true 2
        ⟨none, none, some (Json.obj [("payment_id", Json.str "x")])⟩
        (piCallback "" true true 1
          ⟨none, none, some (Json.obj [("payment_id", Json.str "x"),
              ("status", Json.str "APPROVED")])⟩ []).2).2 "x" "status" =
      some (Json.str "unknown") ∧
    docField (piCallback "" true true 2
        ⟨none, none, some (Json.obj [("payment_id", Json.str "x")])⟩
        (piCallback "" true true 1
          ⟨none, none, some (Json.obj [("payment_id", Json.str "x"),
              ("status", Json.str "APPROVED")])⟩ []).2).2 "x" "raw" =
      some (mergeValue
        (Json.obj [("payment_id", Json.str "x"), ("status", Json.str "APPROVED")])
        (Json.obj [("payment_id", Json.str "x")])) ∧
    getField (mergeValue
        (Json.obj [("payment_id", Json.str "x"), ("status", Json.str "APPROVED")])
        (Json.obj [("payment_id", Json.str "x")])) "status" =
      some (Json.str "APPROVED") ∧
    docField (piCallback "" true true 2
        ⟨none, none, some (Json.obj [("payment_id", Json.str "x")])⟩
        [("x", [("ext", Json.num 7)])]).2 "x" "ext" = some (Json.num 7) :=
  have h := c3_amended_merge_per_written_field "" 1 2
    ⟨none, none, some (Json.obj [("payment_id", Json.str "x"),
        ("status", Json.str "APPROVED")])⟩
    ⟨none, none, some (Json.obj [("payment_id", Json.str "x")])⟩
    (Json.obj [("payment_id", Json.str "x"), ("status", Json.str "APPROVED")])
    (Json.obj [("payment_id", Json.str "x")]) (Json.str "x") []
    rfl rfl rfl rfl (by decide) rfl rfl rfl rfl rfl rfl rfl
  ⟨h.1, h.2.1,
   h.2.2.1 [("payment_id", Json.str "x"), ("status", Json.str "APPROVED")]
     ("payment_id", Json.str "x") [] "status" (Json.str "APPROVED") rfl rfl rfl (by decide),
   h.2.2.2 [("x", [("ext", Json.num 7)])] [("ext", Json.num 7)] "ext" (Json.num 7)
     rfl (by decide) (by decide) (by decide) rfl⟩

/-- Invariant preservation for repeated identical deliveries: once the store
holds exactly the written fields under the payment_id key, further identical
deliveries leave the record and the key list unchanged. -/
theorem iterDeliver_stable
    (secret : String) (t : Nat) (req : Request) (p pid : Json)
    (hv : verifySignature secret req = none) (hb : req.body = some p)
    (hp : truthy p = true) (hg : getField p "payment_id" = some pid)
    (ht : truthy pid = true) :
    ∀ (n : Nat) (s : Store),
      lookupStore s (jsToString pid) = some (writeFields p t) →
      storeKeys (iterDeliver secret true true t req n s) = storeKeys s ∧
      lookupStore (iterDeliver secret true true t req n s) (jsToString pid) =
        some (writeFields p t) := by
  intro n
  induction n with
  | zero => intro s hl; exact ⟨rfl, hl⟩
  | succ m ih =>
    intro s hl
    have hiter : iterDeliver secret true true t req (m + 1) s =
        iterDeliver secret true true t req m
          (storeSet s (jsToString pid) (writeFields p t)) := by
      show iterDeliver secret true true t req m (piCallback secret true true t req s).2 = _
      rw [piCallback_ok_write secret t req s p pid hv hb hp hg ht]
    have hl' : lookupStore (storeSet s (jsToString pid) (writeFields p t)) (jsToString pid) =
        some (writeFields p t) := by
      rw [lookupStore_storeSet_self, hl]
      show some (mergeDoc (writeFields p t) (writeFields p t)) = some (writeFields p t)
      rw [mergeDoc_writeFields_self]
    have hkeys : storeKeys (storeSet s (jsToString pid) (writeFields p t)) = storeKeys s :=
      storeKeys_storeSet_mem s _ _ (mem_storeKeys_of_lookup s _ _ hl)
    rcases ih (storeSet s (jsToString pid) (writeFields p t)) hl' with ⟨hk2, hl2⟩
    rw [hiter]
    exact ⟨by rw [hk2, hkeys], hl2⟩

/-- C5: N identical valid deliveries (N at least 1) of a payment_id new to
the store leave exactly one record under that key, holding the delivered
field values, and every key still occurs exactly once. -/
theorem c5_idempotent_single_record
    (secret : String) (t : Nat) (req : Request) (p pid : Json) (store : Store) (n : Nat)
    (hv : verifySignature secret req = none) (hb : req.body = some p)
    (hp : truthy p = true) (hg : getField p "payment_id" = some pid)
    (ht : truthy pid = true) (hn : 1 ≤ n)
    (hnew : lookupStore store (jsToString pid) = none)
    (hnodup : (storeKeys store).Nodup) :
    lookupStore (iterDeliver secret true true t req n store) (jsToString pid) =
      some (writeFields p t) ∧
    (storeKeys (iterDeliver secret true true t req n store)).count (jsToString pid) = 1 ∧
    (storeKeys (iterDeliver secret true true t req n store)).Nodup := by
  obtain ⟨m, rfl⟩ : ∃ m, n = m + 1 := ⟨n - 1, (Nat.succ_pred_eq_of_pos hn).symm⟩
  have hnotmem : (jsToString pid) ∉ storeKeys store :=
    (lookupStore_eq_none_iff store _).mp hnew
  have hstep : iterDeliver secret true true t req (m + 1) store =
      iterDeliver secret true true t req m
        (storeSet store (jsToString pid) (writeFields p t)) := by
    show iterDeliver secret true true t req m (piCallback secret true true t req store).2 = _
    rw [piCallback_ok_write secret t req store p pid hv hb hp hg ht]
  have hl1 : lookupStore (storeSet store (jsToString pid) (writeFields p t)) (jsToString pid) =
      some (writeFields p t) := by
    rw [lookupStore_storeSet_self, hnew]
  have hkeys1 : storeKeys (storeSet store (jsToString pid) (writeFields p t)) =
      storeKeys store ++ [jsToString pid] := storeKeys_storeSet_notmem store _ _ hnotmem
  rcases iterDeliver_stable secret t req p pid hv hb hp hg ht m _ hl1 with ⟨hk2, hl2⟩
  rw [hstep]
  refine ⟨hl2, ?_, ?_⟩
  · rw [hk2, hkeys1, List.count_append, List.count_eq_zero.mpr hnotmem]
    simp
  · rw [hk2, hkeys1]
    simp [List.nodup_append, hnodup, hnotmem]

theorem c5_witness :
    lookupStore (iterDeliver "" true true 6
        ⟨none, none, some (Json.obj [("payment_id", Json.str "w5")])⟩ 2
        [("other", [("f", Json.null)])]) "w5" =
      some (writeFields (Json.obj [("payment_id", Json.str "w5")]) 6) ∧
    (storeKeys (iterDeliver "" true true 6
        ⟨none, none, some (Json.obj [("payment_id", Json.str "w5")])⟩ 2
        [("other", [("f", Json.null)])])).count "w5" = 1 ∧
    (storeKeys (iterDeliver "" true true 6
        ⟨none, none, some (Json.obj [("payment_id", Json.str "w5")])⟩ 2
        [("other", [("f", Json.null)])])).Nodup :=
  c5_idempotent_single_record "" 6
    ⟨none, none, some (Json.obj [("payment_id", Json.str "w5")])⟩
    (Json.obj [("payment_id", Json.str "w5")]) (Json.str "w5")
    [("other", [("f", Json.null)])] 2
    rfl rfl rfl rfl (by decide) (by decide) rfl (by decide)

/-- C10: the legacy variant answers every POST with 200 and the template
message rendering payment.payment_id (the string undefined when the field is
absent), ignores the signature headers entirely, and never touches the
store. -/
theorem c10_legacy_unconditional_ack (req : Request) (store : Store) :
    (legacyPiCallback req store).2 = store ∧
    (legacyPiCallback req store).1.status = 200 ∧
    (legacyPiCallback req store).1.body =
      Json.obj [("message", Json.str ("Callback received for payment: " ++
        jsTemplate (getField (req.body.getD (Json.obj [])) "payment_id")))] ∧
    (∀ h1 h2 : Option String,
      legacyPiCallback ⟨h1, h2, req.body⟩ store = legacyPiCallback req store) :=
  ⟨rfl, rfl, rfl, fun _ _ => rfl⟩

end BarterPi

